import Mathlib

/-!
Verification development for the VRL assignment compiler
(`lib/vrl/compiler/src/expression/assignment.rs`).

The assignment validator/compiler and the runtime target execution are
translated from the source file.  The supporting crates (`value::Kind`,
`lookup::LookupBuf`, `TypeDef`, the compiler environments and the runtime
context) are not part of the provided sources; their operations are
modelled from the specification, as marked on each definition.
-/

namespace VRL

/-- One segment of a lookup path: a named field, a coalesce over candidate
field names, or an integer array index (`lookup::SegmentBuf`). -/
inductive SegmentBuf where
  | field (name : String)
  | coalesce (names : List String)
  | index (i : Int)
deriving DecidableEq, Repr

/-- A lookup path (`lookup::LookupBuf`): an ordered sequence of segments.
The root path is the empty sequence. -/
abbrev LookupBuf := List SegmentBuf

/-- The root (empty) path. -/
def LookupBuf.root : LookupBuf := []

/-- Whether a path is the root path. -/
def LookupBuf.is_root (p : LookupBuf) : Bool := p.isEmpty

mutual
/-- Modelled from the spec: the Kind lattice (§3) — a tagged union over
scalar kinds, `object` (mapping field → Kind), `array` (mapping index →
Kind), closed under union, with `any` as lattice top.  The `value::Kind`
type is not part of the provided sources. -/
inductive Kind where
  | any
  | bytes
  | integer
  | float
  | boolean
  | timestamp
  | null
  | regex
  | object (fields : KFields)
  | array (elems : KElems)
  | union (a b : Kind)
deriving DecidableEq, Repr
/-- Known fields of an object Kind: an association list field name → Kind. -/
inductive KFields where
  | nil
  | cons (name : String) (k : Kind) (rest : KFields)
deriving DecidableEq, Repr
/-- Known elements of an array Kind: an association list index → Kind. -/
inductive KElems where
  | nil
  | cons (idx : Int) (k : Kind) (rest : KElems)
deriving DecidableEq, Repr
end

/-- Look up a field name in an object Kind's field map. -/
def KFields.lookup : KFields → String → Option Kind
  | .nil, _ => none
  | .cons n k rest, key => if n = key then some k else rest.lookup key

/-- Remove a field name from an object Kind's field map. -/
def KFields.remove : KFields → String → KFields
  | .nil, _ => .nil
  | .cons n k rest, key =>
      if n = key then rest.remove key else .cons n k (rest.remove key)

/-- Overwrite (or add) a field entry in an object Kind's field map. -/
def KFields.update (fs : KFields) (name : String) (k : Kind) : KFields :=
  KFields.cons name k (fs.remove name)

/-- Look up an index in an array Kind's element map. -/
def KElems.lookup : KElems → Int → Option Kind
  | .nil, _ => none
  | .cons n k rest, key => if n = key then some k else rest.lookup key

/-- Remove an index from an array Kind's element map. -/
def KElems.remove : KElems → Int → KElems
  | .nil, _ => .nil
  | .cons n k rest, key =>
      if n = key then rest.remove key else .cons n k (rest.remove key)

/-- Overwrite (or add) an index entry in an array Kind's element map. -/
def KElems.update (es : KElems) (idx : Int) (k : Kind) : KElems :=
  KElems.cons idx k (es.remove idx)

/-- Modelled from the spec: `contains_object` (§4.1) — "could a value of
this Kind be an object": true for a literal object Kind, true if the union
includes `any` or an object, false otherwise. -/
def Kind.contains_object : Kind → Bool
  | .any => true
  | .object _ => true
  | .union a b => a.contains_object || b.contains_object
  | _ => false

/-- Modelled from the spec: `contains_array` (§4.1) — "could a value of
this Kind be an array": true for a literal array Kind, true if the union
includes `any` or an array, false otherwise. -/
def Kind.contains_array : Kind → Bool
  | .any => true
  | .array _ => true
  | .union a b => a.contains_array || b.contains_array
  | _ => false

/-- Modelled from the spec: the Kind lattice is closed under union
(`or_X`, §3); adding `null` to a Kind. -/
def Kind.or_null (k : Kind) : Kind := Kind.union k Kind.null

/-- Modelled from the spec: adding `bytes` to a Kind (§3). -/
def Kind.or_bytes (k : Kind) : Kind := Kind.union k Kind.bytes

/-- The known field map of a Kind (empty for non-object Kinds). -/
def Kind.objFields : Kind → KFields
  | .object fields => fields
  | _ => .nil

/-- The known element map of a Kind (empty for non-array Kinds). -/
def Kind.arrElems : Kind → KElems
  | .array elems => elems
  | _ => .nil

/-- Modelled from the spec: `at_path` (§3, §4.1) — narrow a Kind through a
path, walking Field/Index segments through known object/array entries; if
the root is `any`, a field or index is unknown, or the segment aliases
field names (Coalesce renders the shape partially unknown), the result
degrades to `any` rather than failing. -/
def Kind.at_path : Kind → LookupBuf → Kind
  | k, [] => k
  | Kind.object fields, SegmentBuf.field f :: rest =>
      match fields.lookup f with
      | some k2 => Kind.at_path k2 rest
      | none => Kind.any
  | Kind.array elems, SegmentBuf.index i :: rest =>
      match elems.lookup i with
      | some k2 => Kind.at_path k2 rest
      | none => Kind.any
  | _, _ :: _ => Kind.any

/-- Modelled from the spec: `with_type_inserted` (§3, §4.1) — rebuild the
Kind tree along the given path, replacing the leaf with the inserted Kind
and widening ancestor composite Kinds as needed (an object gains or
overwrites a field entry; an array gains or overwrites an index entry; a
Coalesce segment updates every candidate field name). -/
def Kind.with_type_inserted : Kind → LookupBuf → Kind → Kind
  | _, [], t => t
  | k, SegmentBuf.field f :: rest, t =>
      let fields := k.objFields
      Kind.object (fields.update f
        (Kind.with_type_inserted ((fields.lookup f).getD Kind.null) rest t))
  | k, SegmentBuf.index i :: rest, t =>
      let elems := k.arrElems
      Kind.array (elems.update i
        (Kind.with_type_inserted ((elems.lookup i).getD Kind.null) rest t))
  | k, SegmentBuf.coalesce names :: rest, t =>
      let fields := k.objFields
      Kind.object (names.foldl
        (fun acc n =>
          acc.update n
            (Kind.with_type_inserted ((fields.lookup n).getD Kind.null) rest t))
        fields)

/-- A path is coalesce-free when none of its segments is a Coalesce. -/
def coalesceFree : LookupBuf → Bool
  | [] => true
  | SegmentBuf.coalesce _ :: _ => false
  | _ :: rest => coalesceFree rest

mutual
/-- Modelled from the spec: runtime values (nested objects/arrays of
scalars, §1); the `value::Value` type is not part of the provided sources.
A float is carried as an uninterpreted scaled integer — no floating-point
arithmetic is performed anywhere in this subsystem. -/
inductive Value where
  | bytes (s : String)
  | integer (i : Int)
  | float (scaled : Int)
  | boolean (b : Bool)
  | timestamp (t : Int)
  | regex (s : String)
  | null
  | object (fields : VFields)
  | array (elems : VElems)
deriving DecidableEq, Repr
/-- Fields of an object value: an association list field name → value. -/
inductive VFields where
  | nil
  | cons (name : String) (v : Value) (rest : VFields)
deriving DecidableEq, Repr
/-- Elements of an array value, in order. -/
inductive VElems where
  | nil
  | cons (v : Value) (rest : VElems)
deriving DecidableEq, Repr
end

/-- Look up a field name in an object value. -/
def VFields.lookup : VFields → String → Option Value
  | .nil, _ => none
  | .cons n v rest, key => if n = key then some v else rest.lookup key

/-- Remove a field name from an object value. -/
def VFields.remove : VFields → String → VFields
  | .nil, _ => .nil
  | .cons n v rest, key =>
      if n = key then rest.remove key else .cons n v (rest.remove key)

/-- Overwrite (or add) a field entry of an object value. -/
def VFields.update (fs : VFields) (name : String) (v : Value) : VFields :=
  VFields.cons name v (fs.remove name)

/-- The element of an array value at a non-negative position. -/
def VElems.get : VElems → Nat → Option Value
  | .nil, _ => none
  | .cons v _, 0 => some v
  | .cons _ rest, n + 1 => rest.get n

/-- Set the element at a non-negative position, padding with `null` to
grow the array to that position when needed. -/
def VElems.setGrow : VElems → Nat → Value → VElems
  | .nil, 0, v => .cons v .nil
  | .nil, n + 1, v => .cons Value.null (VElems.setGrow .nil n v)
  | .cons _ rest, 0, v => .cons v rest
  | .cons w rest, n + 1, v => .cons w (rest.setGrow n v)

/-- Modelled from the spec: the canonical default value for a Kind
(§4.3 step 5) — used at runtime as the `ok` value when the infallible
assignment's expression fails.  The compiler's `DefaultValue` impl is not
part of the provided sources; a union defaults to its first alternative,
`any` defaults to `null`. -/
def Kind.default_value : Kind → Value
  | .any => Value.null
  | .bytes => Value.bytes ""
  | .integer => Value.integer 0
  | .float => Value.float 0
  | .boolean => Value.boolean false
  | .timestamp => Value.timestamp 0
  | .null => Value.null
  | .regex => Value.regex ""
  | .object _ => Value.object VFields.nil
  | .array _ => Value.array VElems.nil
  | .union a _ => a.default_value

/-- A type definition (§3): a Kind plus a fallibility flag, attached to
every expression result and every variable's current known type. -/
structure TypeDef where
  kind : Kind
  fallible : Bool
deriving DecidableEq, Repr

/-- Modelled from the spec: `TypeDef::null()` — the null Kind, infallible. -/
def TypeDef.null : TypeDef := ⟨Kind.null, false⟩

/-- Modelled from the spec: `TypeDef::bytes()` — the bytes Kind, infallible. -/
def TypeDef.bytes : TypeDef := ⟨Kind.bytes, false⟩

/-- Modelled from the spec: add `null` to a TypeDef's Kind. -/
def TypeDef.add_null (td : TypeDef) : TypeDef := ⟨td.kind.or_null, td.fallible⟩

/-- Mark a TypeDef infallible. -/
def TypeDef.infallible (td : TypeDef) : TypeDef := ⟨td.kind, false⟩

/-- Whether a TypeDef is infallible. -/
def TypeDef.is_infallible (td : TypeDef) : Bool := !td.fallible

/-- The canonical default value for a TypeDef's Kind. -/
def TypeDef.default_value (td : TypeDef) : Value := td.kind.default_value

/-- Modelled from the spec: `TypeDef::with_type_inserted` (§4.3 steps 5–7)
— thread the inserted type definition through the receiver's Kind at the
given path; the recorded fallibility follows the inserted definition. -/
def TypeDef.with_type_inserted (td : TypeDef) (path : LookupBuf)
    (other : TypeDef) : TypeDef :=
  ⟨td.kind.with_type_inserted path other.kind, other.fallible⟩

/-- Details (§3): a TypeDef plus an optional known constant value, stored
per variable in `LocalEnv` and as the single current state of the ambient
record in `ExternalEnv`. -/
structure Details where
  type_def : TypeDef
  value : Option Value
deriving DecidableEq, Repr

/-- A variable identifier. -/
abbrev Ident := String

/-- Modelled from the spec: `LocalEnv` (§3) — the compile-scope variable
table, mapping identifiers to their current Details. -/
structure LocalEnv where
  bindings : List (Ident × Details)
deriving DecidableEq, Repr

/-- Look up a variable's Details in the local environment
(`LocalEnv::variable`; `variable` is a reserved word in Lean). -/
def LocalEnv.variable_ (e : LocalEnv) (ident : Ident) : Option Details :=
  e.bindings.lookup ident

/-- Insert (or overwrite) a variable's Details
(`LocalEnv::insert_variable`). -/
def LocalEnv.insert_variable (e : LocalEnv) (ident : Ident) (d : Details) :
    LocalEnv :=
  ⟨(ident, d) :: e.bindings.filter (fun p => p.1 ≠ ident)⟩

/-- Modelled from the spec: `ExternalEnv` (§3, §6) — the ambient record's
current Details plus a read-only-path predicate. -/
structure ExternalEnv where
  targetDetails : Details
  readOnly : LookupBuf → Bool

/-- The ambient record's current Details (`ExternalEnv::target`). -/
def ExternalEnv.target (e : ExternalEnv) : Details := e.targetDetails

/-- The ambient record's current Kind (`ExternalEnv::target_kind`). -/
def ExternalEnv.target_kind (e : ExternalEnv) : Kind :=
  e.targetDetails.type_def.kind

/-- The read-only-path predicate
(`ExternalEnv::is_read_only_event_path`). -/
def ExternalEnv.is_read_only_event_path (e : ExternalEnv) (p : LookupBuf) :
    Bool :=
  e.readOnly p

/-- Replace the ambient record's Details (`ExternalEnv::update_target`). -/
def ExternalEnv.update_target (e : ExternalEnv) (d : Details) : ExternalEnv :=
  { e with targetDetails := d }

/-- Modelled from the spec: the live per-record evaluation context (§4.4)
— a variable store plus the mutable ambient record. -/
structure Context where
  state : List (Ident × Value)
  target : Value
deriving DecidableEq, Repr

/-- Read a variable from the runtime variable store. -/
def Context.variableValue (ctx : Context) (ident : Ident) : Option Value :=
  ctx.state.lookup ident

/-- Replace (or create) a variable in the runtime variable store
(the store's `insert_variable`). -/
def Context.insert_variable (ctx : Context) (ident : Ident) (v : Value) :
    Context :=
  { ctx with state := (ident, v) :: ctx.state.filter (fun p => p.1 ≠ ident) }

/-- A runtime expression failure; `to_string` renders its message. -/
structure RuntimeError where
  message : String
deriving DecidableEq, Repr

/-- Modelled from the spec: insert a value into a value at a sub-path,
materializing intermediate containers as needed (§4.4) — `Value`'s
path-insert is not part of the provided sources.  A non-container parent
is replaced by the required container; an array grows (null-padded) to a
requested non-negative index, while a negative index addresses position 0;
a Coalesce segment writes its first candidate field. -/
def Value.insert_by_path : Value → LookupBuf → Value → Value
  | _, [], v => v
  | self, SegmentBuf.field f :: rest, v =>
      let fields := match self with
        | Value.object fs => fs
        | _ => VFields.nil
      Value.object (fields.update f
        (Value.insert_by_path ((fields.lookup f).getD Value.null) rest v))
  | self, SegmentBuf.coalesce names :: rest, v =>
      let fields := match self with
        | Value.object fs => fs
        | _ => VFields.nil
      let f := names.headD ""
      Value.object (fields.update f
        (Value.insert_by_path ((fields.lookup f).getD Value.null) rest v))
  | self, SegmentBuf.index i :: rest, v =>
      let elems := match self with
        | Value.array es => es
        | _ => VElems.nil
      let n := i.toNat
      Value.array (elems.setGrow n
        (Value.insert_by_path ((elems.get n).getD Value.null) rest v))

/-- Modelled from the spec: `Value::at_path` — wrap a value in the
containers described by a path, so that the result holds the value at
that path (used when a variable does not exist yet, §4.4). -/
def Value.at_path (v : Value) (path : LookupBuf) : Value :=
  Value.insert_by_path Value.null path v

/-- Modelled from the spec: the ambient record's path-insert operation
(`ctx.target_mut().target_insert`, §4.4); low-level failures are not
surfaced. -/
def Context.target_insert (ctx : Context) (path : LookupBuf) (v : Value) :
    Context :=
  { ctx with target := ctx.target.insert_by_path path v }

/-- A source-location range anchoring diagnostics (`Span`).  `end` is a
reserved word in Lean, so the end position is called `stop`. -/
structure Span where
  start : Nat
  stop : Nat
deriving DecidableEq, Repr

/-- `Span::new`. -/
def Span.new (start stop : Nat) : Span := ⟨start, stop⟩

/-- A parsed node: a value annotated with its source span
(`parser::Node`). -/
structure Node (α : Type) where
  span : Span
  inner : α
deriving DecidableEq, Repr

/-- `Node::take`: split a node into its span and inner value. -/
def Node.take {α : Type} (n : Node α) : Span × α := (n.span, n.inner)

/-- `Node::into_inner`. -/
def Node.into_inner {α : Type} (n : Node α) : α := n.inner

/-- The right-hand-side expression contract (§6): a `type_def` over the
current environments, a `resolve` against the runtime context (returning
a value or a failure, with the context mutations it performed), the
expression's known constant value if any (`as_value`), and its rendered
source text (`to_string`), snapshot for diagnostics. -/
structure Expr where
  type_def : LocalEnv → ExternalEnv → TypeDef
  resolve : Context → Except RuntimeError Value × Context
  as_value : Option Value
  text : String

/-- The parsed query-target grammar node (`ast::QueryTarget`): a variable
reference, the ambient record, or any other shape (rejected later). -/
inductive QueryTarget where
  | internal (ident : Ident)
  | external
  | other
deriving DecidableEq, Repr

/-- The parsed assignment-target grammar node (`ast::AssignmentTarget`). -/
inductive AssignmentTarget where
  | noop
  | query (target : Node QueryTarget) (path : Node LookupBuf)
  | internal (ident : Ident) (path : Option LookupBuf)
  | external (path : Option LookupBuf)
deriving DecidableEq, Repr

/-- Modelled from the spec: rendering of a path for diagnostics (the
`lookup` crate's Display is not part of the provided sources): fields are
joined with `.` (no leading dot), an index renders as `[i]`, a coalesce
as its candidate names joined by `|` in parentheses. -/
def SegmentBuf.render : SegmentBuf → String
  | .field f => f
  | .coalesce names => "(" ++ String.intercalate " | " names ++ ")"
  | .index i => "[" ++ toString i ++ "]"

/-- Modelled from the spec: rendering of a whole path for diagnostics. -/
def LookupBuf.render (p : LookupBuf) : String :=
  match p with
  | [] => ""
  | first :: rest =>
      rest.foldl
        (fun acc s =>
          match s with
          | SegmentBuf.index _ => acc ++ s.render
          | _ => acc ++ "." ++ s.render)
        first.render

/-- Modelled from the spec: rendering of a parsed assignment target for
diagnostics (the `ast` Display impls are not part of the provided
sources). -/
def AssignmentTarget.render : AssignmentTarget → String
  | .noop => "_"
  | .query t p =>
      (match t.inner with
        | QueryTarget.internal ident => ident
        | QueryTarget.external => "."
        | QueryTarget.other => "?") ++ p.inner.render
  | .internal ident none => ident
  | .internal ident (some p) => ident ++ "." ++ p.render
  | .external none => "."
  | .external (some p) => "." ++ p.render

/-- The compile-time classification of an assignment's destination
(`Target`): discard, local variable with sub-path, or ambient record
path. -/
inductive Target where
  | noop
  | internal (ident : Ident) (path : LookupBuf)
  | external (path : LookupBuf)
deriving DecidableEq, Repr

/-- `Target::lookup_buf`: the target's path (root for Noop). -/
def Target.lookup_buf : Target → LookupBuf
  | .noop => LookupBuf.root
  | .internal _ path => path
  | .external path => path

/-- The diagnostic error variants of the assignment compiler
(`ErrorVariant` in `assignment.rs`). -/
inductive ErrorVariant where
  | unnecessaryNoop (target_span : Span)
  | fallibleAssignment (target : String) (expr : String)
  | infallibleAssignment (target : String) (expr : String)
      (ok_span : Span) (err_span : Span)
  | invalidTarget (span : Span)
  | readOnly
  | invalidParentPathSegment (variant : String) (parent_kind : Kind)
      (parent_span : Span) (parent_str : String) (segment_span : Span)
      (remainder_str : String) (rhs_expr : Expr)

/-- A compile error: the variant plus the expression and whole-assignment
spans (`Error` in `assignment.rs`). -/
structure Error where
  variant : ErrorVariant
  expr_span : Span
  assignment_span : Span

/-- A plain tag identifying an error variant (used to state claims
without comparing diagnostic payloads). -/
inductive ErrorTag where
  | unnecessaryNoop
  | fallibleAssignment
  | infallibleAssignment
  | invalidTarget
  | readOnly
  | invalidParentPathSegment
deriving DecidableEq, Repr

/-- The tag of an error variant. -/
def ErrorVariant.tag : ErrorVariant → ErrorTag
  | .unnecessaryNoop _ => .unnecessaryNoop
  | .fallibleAssignment _ _ => .fallibleAssignment
  | .infallibleAssignment _ _ _ _ => .infallibleAssignment
  | .invalidTarget _ => .invalidTarget
  | .readOnly => .readOnly
  | .invalidParentPathSegment _ _ _ _ _ _ _ => .invalidParentPathSegment

/-- The tag of a compile error. -/
def Error.tag (e : Error) : ErrorTag := e.variant.tag

/-- The stable numeric diagnostic code of a compile error
(`DiagnosticMessage::code` in `assignment.rs`). -/
def ErrorVariant.code : ErrorVariant → Nat
  | .unnecessaryNoop _ => 640
  | .fallibleAssignment _ _ => 103
  | .infallibleAssignment _ _ _ _ => 104
  | .invalidTarget _ => 641
  | .invalidParentPathSegment _ _ _ _ _ _ _ => 642
  | .readOnly => 315

/-- The offending parent Kind carried by an InvalidParentPathSegment
error, if the error is of that variant. -/
def Error.parentKind? (e : Error) : Option Kind :=
  match e.variant with
  | .invalidParentPathSegment _ parent_kind _ _ _ _ _ => some parent_kind
  | _ => none

/-- The required structural kind (`"object"` or `"array"`) carried by an
InvalidParentPathSegment error, if the error is of that variant. -/
def Error.requiredStr? (e : Error) : Option String :=
  match e.variant with
  | .invalidParentPathSegment variant _ _ _ _ _ _ => some variant
  | _ => none

/-- `TryFrom<ast::AssignmentTarget> for Target`: classify the parsed
assignment-target grammar node, rejecting query shapes that resolve to
neither a variable nor the ambient record with InvalidTarget. -/
def Target.try_from : AssignmentTarget → Except Error Target
  | AssignmentTarget.noop => Except.ok Target.noop
  | AssignmentTarget.query qtarget qpath =>
      let (target_span, qt) := qtarget.take
      let (path_span, path) := qpath.take
      let span := Span.new target_span.start path_span.stop
      match qt with
      | QueryTarget.internal ident => Except.ok (Target.internal ident path)
      | QueryTarget.external => Except.ok (Target.external path)
      | QueryTarget.other =>
          Except.error ⟨ErrorVariant.invalidTarget span, span, span⟩
  | AssignmentTarget.internal ident path =>
      Except.ok (Target.internal ident (path.getD LookupBuf.root))
  | AssignmentTarget.external path =>
      Except.ok (Target.external (path.getD LookupBuf.root))

/-- `Target::insert_type_def`: record the assignment in the owning
environment — thread the new type definition through the root type
definition at the target's path (an unseen variable starts from
`TypeDef::null()`), storing the optional known constant value alongside. -/
def Target.insert_type_def (t : Target) (loc : LocalEnv) (ext : ExternalEnv)
    (new_type_def : TypeDef) (value : Option Value) :
    LocalEnv × ExternalEnv :=
  match t with
  | .noop => (loc, ext)
  | .internal ident path =>
      let type_def := match loc.variable_ ident with
        | none => TypeDef.null.with_type_inserted path new_type_def
        | some d => d.type_def.with_type_inserted path new_type_def
      (loc.insert_variable ident ⟨type_def, value⟩, ext)
  | .external path =>
      (loc, ext.update_target
        ⟨ext.target.type_def.with_type_inserted path new_type_def, value⟩)

/-- `Target::insert`: runtime target execution — apply a resolved value
to the live evaluation context (§4.4). -/
def Target.insert (t : Target) (value : Value) (ctx : Context) : Context :=
  match t with
  | .noop => ctx
  | .internal ident path =>
      if path.is_root then ctx.insert_variable ident value
      else
        match ctx.variableValue ident with
        | some stored =>
            ctx.insert_variable ident (stored.insert_by_path path value)
        | none => ctx.insert_variable ident (value.at_path path)
  | .external path => ctx.target_insert path value

/-- `verify_mutable`: an External target is rejected with ReadOnly when
the external environment's read-only-path predicate matches its path;
Internal and Noop targets always pass. -/
def verify_mutable (t : Target) (ext : ExternalEnv)
    (expr_span assignment_span : Span) : Except Error Unit :=
  match t with
  | Target.external lookup_buf =>
      if ext.is_read_only_event_path lookup_buf then
        Except.error ⟨ErrorVariant.readOnly, expr_span, assignment_span⟩
      else
        Except.ok ()
  | Target.internal _ _ => Except.ok ()
  | Target.noop => Except.ok ()

/-- The root Kind against which a target's path is validated
(computed inside `verify_overwriteable`): `any` for Noop, the variable's
current Kind (or `any` if unseen) for Internal, the ambient record's
current Kind for External. -/
def targetRootKind (t : Target) (loc : LocalEnv) (ext : ExternalEnv) : Kind :=
  match t with
  | Target.noop => Kind.any
  | Target.internal ident _ =>
      match loc.variable_ ident with
      | some detail => detail.type_def.kind
      | none => Kind.any
  | Target.external _ => ext.target_kind

/-- The per-segment data of one iteration of `verify_overwriteable`'s
loop: the required structural kind, the narrowed parent span, the
remainder string grown with this segment, and whether the parent Kind
passes the containment check. -/
structure StepInfo where
  variant : String
  parent_span2 : Span
  remainder2 : String
  valid : Bool

/-- One iteration's match of `verify_overwriteable`'s loop: a
Field/Coalesce segment requires `contains_object` on the parent Kind and
prepends `.segment` to the remainder; an Index segment requires
`contains_array` and prepends `[i]`. -/
def verifyStep (parent_kind : Kind) (parent_span : Span)
    (segment_start : Nat) (segment_str : String) (remainder_str : String) :
    SegmentBuf → StepInfo
  | SegmentBuf.index _ =>
      ⟨"array", Span.new parent_span.start segment_start,
       segment_str ++ remainder_str, parent_kind.contains_array⟩
  | _ =>
      ⟨"object", Span.new parent_span.start (segment_start - 1),
       "." ++ segment_str ++ remainder_str, parent_kind.contains_object⟩

/-- The `while let Some(last) = path.pop_back()` loop of
`verify_overwriteable`, with the popped-off segments given in reverse
order (last segment first, exactly the order `pop_back` yields them).
Each step narrows the root Kind through the remaining prefix via
`at_path`, requires `contains_object` for a Field/Coalesce segment and
`contains_array` for an Index segment, and aborts at the first failure
with InvalidParentPathSegment.  Segment lengths are counted in characters
rather than bytes. -/
def verifyLoopRev (t : Target) (root_kind : Kind)
    (expr_span assignment_span : Span) (rhs_expr : Expr) :
    List SegmentBuf → Span → String → Except Error Unit
  | [], _, _ => Except.ok ()
  | last :: revPre, parent_span, remainder_str =>
      let path := revPre.reverse
      let parent_kind := root_kind.at_path path
      let segment_str := last.render
      let segment_start := parent_span.stop - segment_str.length
      let segment_span := Span.new segment_start parent_span.stop
      let s := verifyStep parent_kind parent_span segment_start segment_str
        remainder_str last
      if s.valid then
        verifyLoopRev t root_kind expr_span assignment_span rhs_expr revPre
          s.parent_span2 s.remainder2
      else
        let parentRemainder : String × String := match t with
          | Target.internal ident _ =>
              (ident ++ LookupBuf.render path, s.remainder2)
          | Target.external _ =>
              ("." ++ LookupBuf.render path,
               if LookupBuf.is_root path && s.remainder2.startsWith "."
               then s.remainder2.drop 1
               else s.remainder2)
          | Target.noop => ("", s.remainder2)
        Except.error
          ⟨ErrorVariant.invalidParentPathSegment s.variant parent_kind
              s.parent_span2 parentRemainder.1 segment_span
              parentRemainder.2 rhs_expr,
           expr_span, assignment_span⟩

/-- `verify_overwriteable`: ensure the target is allowed to be changed —
an error results when the assignment writes an object field or array
index whose parent cannot be an object/array. -/
def verify_overwriteable (t : Target) (loc : LocalEnv) (ext : ExternalEnv)
    (target_span expr_span assignment_span : Span) (rhs_expr : Expr) :
    Except Error Unit :=
  verifyLoopRev t (targetRootKind t loc ext) expr_span assignment_span
    rhs_expr t.lookup_buf.reverse target_span ""

/-- Spec-side reference walk, written from the specification's words
(§4.3 overwriteability check): walk the path from its last segment back
to the root, narrowing the root Kind via `at_path` on the prefix before
the segment under test; a Field/Coalesce segment requires
`contains_object` on that parent Kind, an Index segment requires
`contains_array`; the first failing segment yields the required
structural kind together with the offending parent Kind.  The segments
are given in reverse order (last segment first). -/
def specOverwriteWalkRev (root : Kind) :
    List SegmentBuf → Option (String × Kind)
  | [] => none
  | seg :: revPre =>
      let parent := root.at_path revPre.reverse
      match seg with
      | SegmentBuf.index _ =>
          if parent.contains_array then specOverwriteWalkRev root revPre
          else some ("array", parent)
      | _ =>
          if parent.contains_object then specOverwriteWalkRev root revPre
          else some ("object", parent)

/-- Spec-side reference overwriteability verdict for a whole path. -/
def specOverwriteWalk (root : Kind) (path : LookupBuf) :
    Option (String × Kind) :=
  specOverwriteWalkRev root path.reverse

/-- The two assignment shapes (`Variant<T, U>`): a single-target
assignment, or the dual-target infallible assignment which also carries
the default `ok` value used when the expression results in an error. -/
inductive Variant (T U : Type) where
  | single (target : T) (expr : U)
  | infallible (ok : T) (err : T) (expr : U) (default : Value)

/-- A compiled assignment node (`Assignment`). -/
structure Assignment where
  variant : Variant Target Expr

/-- `Assignment::new` — the assignment validator & compiler (§4.3),
translated from `assignment.rs`.  The environments are threaded
explicitly: the Rust function takes them by mutable reference, so every
return path — error returns included — carries the environments as
mutated so far.  `fallible_rhs` is the caller-propagated marker that the
right-hand expression is known fallible (`Option::is_some` of the Rust
argument). -/
def Assignment.new
    (node : Node (Variant (Node AssignmentTarget) (Node Expr)))
    (loc : LocalEnv) (ext : ExternalEnv) (fallible_rhs : Bool) :
    Except Error Assignment × LocalEnv × ExternalEnv :=
  match (node.take).2 with
  | Variant.single target expr =>
      let target_span := target.span
      let expr_span := expr.span
      let assignment_span := Span.new target_span.start (expr_span.start - 1)
      let type_def := expr.inner.type_def loc ext
      -- Fallible expressions require infallible assignment.
      if fallible_rhs then
        (Except.error
          ⟨ErrorVariant.fallibleAssignment (target.inner.render)
              (expr.inner.text),
           expr_span, assignment_span⟩, loc, ext)
      -- Single-target no-op assignments are useless.
      else if target.inner = AssignmentTarget.noop then
        (Except.error
          ⟨ErrorVariant.unnecessaryNoop target_span, expr_span,
           assignment_span⟩, loc, ext)
      else
        let e := expr.into_inner
        match Target.try_from target.into_inner with
        | Except.error err => (Except.error err, loc, ext)
        | Except.ok tgt =>
          match verify_mutable tgt ext expr_span assignment_span with
          | Except.error err => (Except.error err, loc, ext)
          | Except.ok _ =>
            match verify_overwriteable tgt loc ext target_span expr_span
                assignment_span e with
            | Except.error err => (Except.error err, loc, ext)
            | Except.ok _ =>
              let value := e.as_value
              let envs := tgt.insert_type_def loc ext type_def value
              (Except.ok ⟨Variant.single tgt e⟩, envs.1, envs.2)
  | Variant.infallible ok err expr _ =>
      let ok_span := ok.span
      let err_span := err.span
      let expr_span := expr.span
      let assignment_span := Span.new ok_span.start err_span.stop
      let type_def := expr.inner.type_def loc ext
      -- Infallible expressions do not need fallible assignment.
      if type_def.is_infallible then
        (Except.error
          ⟨ErrorVariant.infallibleAssignment (ok.inner.render)
              (expr.inner.text) ok_span err_span,
           expr_span, assignment_span⟩, loc, ext)
      else
        let ok_noop := ok.inner = AssignmentTarget.noop
        let err_noop := err.inner = AssignmentTarget.noop
        -- Infallible-target no-op assignments are useless.
        if ok_noop && err_noop then
          (Except.error
            ⟨ErrorVariant.unnecessaryNoop ok_span, expr_span,
             assignment_span⟩, loc, ext)
        else
          let e := expr.into_inner
          -- The "ok" target takes on the type definition of the value,
          -- but is set to being infallible, as the error will be captured
          -- by the "err" target.
          match Target.try_from ok.into_inner with
          | Except.error er => (Except.error er, loc, ext)
          | Except.ok okTgt =>
            match verify_mutable okTgt ext expr_span ok_span with
            | Except.error er => (Except.error er, loc, ext)
            | Except.ok _ =>
              match verify_overwriteable okTgt loc ext ok_span expr_span
                  assignment_span e with
              | Except.error er => (Except.error er, loc, ext)
              | Except.ok _ =>
                let type_def2 := type_def.infallible
                let default_value := type_def2.default_value
                let value := e.as_value
                let envs := okTgt.insert_type_def loc ext type_def2 value
                -- The "err" target is assigned null or a string containing
                -- the error message.
                match Target.try_from err.into_inner with
                | Except.error er => (Except.error er, envs.1, envs.2)
                | Except.ok errTgt =>
                  match verify_mutable errTgt envs.2 expr_span err_span with
                  | Except.error er => (Except.error er, envs.1, envs.2)
                  | Except.ok _ =>
                    match verify_overwriteable errTgt envs.1 envs.2 err_span
                        expr_span assignment_span e with
                    | Except.error er => (Except.error er, envs.1, envs.2)
                    | Except.ok _ =>
                      let type_def3 := TypeDef.bytes.add_null.infallible
                      let envs2 :=
                        errTgt.insert_type_def envs.1 envs.2 type_def3 none
                      (Except.ok
                        ⟨Variant.infallible okTgt errTgt e default_value⟩,
                       envs2.1, envs2.2)

/-- `Variant::resolve` — runtime evaluation of a compiled assignment
(§4.4): a Single assignment resolves the expression, propagating its
failure, and inserts the value into the target; an Infallible assignment
resolves the expression once, inserting the value into the `ok` target
and null into the `err` target on success, or the precomputed default
into `ok` and the failure's rendered message into `err` on failure —
returning Ok in both branches. -/
def Variant.resolve (v : Variant Target Expr) (ctx : Context) :
    Except RuntimeError Value × Context :=
  match v with
  | Variant.single tgt expr =>
      match expr.resolve ctx with
      | (Except.ok value, ctx2) =>
          (Except.ok value, tgt.insert value ctx2)
      | (Except.error e, ctx2) => (Except.error e, ctx2)
  | Variant.infallible ok err expr default =>
      match expr.resolve ctx with
      | (Except.ok value, ctx2) =>
          (Except.ok value, err.insert Value.null (ok.insert value ctx2))
      | (Except.error e, ctx2) =>
          let value := Value.bytes e.message
          (Except.ok value, err.insert value (ok.insert default ctx2))

/-- `Assignment` implements the `Expression` contract by delegating to
its variant (`impl Expression for Assignment`). -/
def Assignment.resolve (a : Assignment) (ctx : Context) :
    Except RuntimeError Value × Context :=
  a.variant.resolve ctx

/-- `Variant::type_def`: a Single assignment reports the expression's
type definition; an Infallible assignment reports the expression's Kind
widened with bytes (the error message), unconditionally infallible. -/
def Variant.type_def (v : Variant Target Expr) (loc : LocalEnv)
    (ext : ExternalEnv) : TypeDef :=
  match v with
  | Variant.single _ expr => expr.type_def loc ext
  | Variant.infallible _ _ expr _ =>
      let td := expr.type_def loc ext
      TypeDef.infallible ⟨td.kind.or_bytes, td.fallible⟩

/-- A constant, infallible expression with the given value and Kind
(an instance of the §6 expression contract, used for concrete programs). -/
def exprLit (v : Value) (k : Kind) (t : String) : Expr :=
  { type_def := fun _ _ => ⟨k, false⟩,
    resolve := fun ctx => (Except.ok v, ctx),
    as_value := some v,
    text := t }

/-- A statically fallible expression that succeeds at runtime with the
given value. -/
def exprFallible (v : Value) (k : Kind) (t : String) : Expr :=
  { type_def := fun _ _ => ⟨k, true⟩,
    resolve := fun ctx => (Except.ok v, ctx),
    as_value := none,
    text := t }

/-- A statically fallible expression that fails at runtime with the given
message. -/
def exprFailing (msg : String) : Expr :=
  { type_def := fun _ _ => ⟨Kind.integer, true⟩,
    resolve := fun ctx => (Except.error ⟨msg⟩, ctx),
    as_value := none,
    text := "f()" }

/-- An external environment whose record is unconstrained and has no
read-only regions. -/
def extEnv0 : ExternalEnv := ⟨⟨⟨Kind.any, false⟩, none⟩, fun _ => false⟩

/-- An external environment whose every path is read-only. -/
def extEnvRO : ExternalEnv := ⟨⟨⟨Kind.any, false⟩, none⟩, fun _ => true⟩

/-- The empty local environment. -/
def locEnv0 : LocalEnv := ⟨[]⟩

/-- An empty runtime context. -/
def ctxEmpty : Context := ⟨[], Value.object VFields.nil⟩

/-- The error tag of a compilation outcome, when it failed. -/
def compileResultErrTag : Except Error Assignment → Option ErrorTag
  | Except.error e => some e.tag
  | Except.ok _ => none

-- ---------------------------------------------------------------------
-- Lemmas
-- ---------------------------------------------------------------------

/-- Looking up the field just written by `KFields.update` yields the
written Kind. -/
theorem KFields.lookup_update_field (fs : KFields) (f : String) (k : Kind) :
    (fs.update f k).lookup f = some k := by
  simp [KFields.update, KFields.lookup]

/-- Looking up the index just written by `KElems.update` yields the
written Kind. -/
theorem KElems.lookup_update_index (es : KElems) (i : Int) (k : Kind) :
    (es.update i k).lookup i = some k := by
  simp [KElems.update, KElems.lookup]

/-- Narrowing after insertion round-trips along any coalesce-free path:
`at_path` applied to `with_type_inserted` recovers the inserted Kind. -/
theorem at_path_with_type_inserted (p : LookupBuf) :
    ∀ (k t : Kind), coalesceFree p = true →
      (k.with_type_inserted p t).at_path p = t := by
  induction p with
  | nil => intro k t _; simp [Kind.with_type_inserted, Kind.at_path]
  | cons seg rest ih =>
      intro k t hfree
      cases seg with
      | field f =>
          simp only [Kind.with_type_inserted, Kind.at_path,
            KFields.lookup_update_field]
          exact ih _ _ (by simpa [coalesceFree] using hfree)
      | index i =>
          simp only [Kind.with_type_inserted, Kind.at_path,
            KElems.lookup_update_index]
          exact ih _ _ (by simpa [coalesceFree] using hfree)
      | coalesce names => simp [coalesceFree] at hfree

/-- Inserting from a `null` root and from an `any` root rebuild the same
Kind tree: both roots carry no known object/array sub-structure. -/
theorem with_type_inserted_null_any (p : LookupBuf) (t : Kind) :
    Kind.null.with_type_inserted p t = Kind.any.with_type_inserted p t := by
  cases p with
  | nil => rfl
  | cons seg rest => cases seg <;> rfl

/-- The loop of `verify_overwriteable` agrees with the spec-side walk:
it accepts exactly when the walk reports no failure, and on rejection it
produces an InvalidParentPathSegment error carrying precisely the walk's
required structural kind and offending parent Kind. -/
theorem verifyLoopRev_spec (revp : List SegmentBuf) :
    ∀ (t : Target) (root : Kind) (espan aspan : Span) (rhs : Expr)
      (pspan : Span) (rem : String),
      (verifyLoopRev t root espan aspan rhs revp pspan rem = Except.ok () →
        specOverwriteWalkRev root revp = none) ∧
      (∀ e, verifyLoopRev t root espan aspan rhs revp pspan rem =
          Except.error e →
        ∃ v pk, specOverwriteWalkRev root revp = some (v, pk) ∧
          e.tag = ErrorTag.invalidParentPathSegment ∧
          e.requiredStr? = some v ∧ e.parentKind? = some pk) := by
  induction revp with
  | nil =>
      intro t root espan aspan rhs pspan rem
      constructor
      · intro _; rfl
      · intro e he; simp [verifyLoopRev] at he
  | cons seg revPre ih =>
      intro t root espan aspan rhs pspan rem
      cases seg with
      | field f =>
          by_cases hv : (root.at_path revPre.reverse).contains_object
          · constructor
            · intro h
              simp only [verifyLoopRev, verifyStep, hv, if_true] at h
              simp only [specOverwriteWalkRev, hv, if_true]
              exact (ih t root espan aspan rhs _ _).1 h
            · intro e he
              simp only [verifyLoopRev, verifyStep, hv, if_true] at he
              simp only [specOverwriteWalkRev, hv, if_true]
              exact (ih t root espan aspan rhs _ _).2 e he
          · simp only [Bool.not_eq_true] at hv
            constructor
            · intro h
              simp [verifyLoopRev, verifyStep, hv] at h
            · intro e he
              simp only [verifyLoopRev, verifyStep, hv, Bool.false_eq_true,
                if_false, Except.error.injEq] at he
              subst he
              exact ⟨"object", root.at_path revPre.reverse,
                by simp [specOverwriteWalkRev, hv], rfl, rfl, rfl⟩
      | coalesce names =>
          by_cases hv : (root.at_path revPre.reverse).contains_object
          · constructor
            · intro h
              simp only [verifyLoopRev, verifyStep, hv, if_true] at h
              simp only [specOverwriteWalkRev, hv, if_true]
              exact (ih t root espan aspan rhs _ _).1 h
            · intro e he
              simp only [verifyLoopRev, verifyStep, hv, if_true] at he
              simp only [specOverwriteWalkRev, hv, if_true]
              exact (ih t root espan aspan rhs _ _).2 e he
          · simp only [Bool.not_eq_true] at hv
            constructor
            · intro h
              simp [verifyLoopRev, verifyStep, hv] at h
            · intro e he
              simp only [verifyLoopRev, verifyStep, hv, Bool.false_eq_true,
                if_false, Except.error.injEq] at he
              subst he
              exact ⟨"object", root.at_path revPre.reverse,
                by simp [specOverwriteWalkRev, hv], rfl, rfl, rfl⟩
      | index i =>
          by_cases hv : (root.at_path revPre.reverse).contains_array
          · constructor
            · intro h
              simp only [verifyLoopRev, verifyStep, hv, if_true] at h
              simp only [specOverwriteWalkRev, hv, if_true]
              exact (ih t root espan aspan rhs _ _).1 h
            · intro e he
              simp only [verifyLoopRev, verifyStep, hv, if_true] at he
              simp only [specOverwriteWalkRev, hv, if_true]
              exact (ih t root espan aspan rhs _ _).2 e he
          · simp only [Bool.not_eq_true] at hv
            constructor
            · intro h
              simp [verifyLoopRev, verifyStep, hv] at h
            · intro e he
              simp only [verifyLoopRev, verifyStep, hv, Bool.false_eq_true,
                if_false, Except.error.injEq] at he
              subst he
              exact ⟨"array", root.at_path revPre.reverse,
                by simp [specOverwriteWalkRev, hv], rfl, rfl, rfl⟩

-- ---------------------------------------------------------------------
-- Claims
-- ---------------------------------------------------------------------

/-- C9 (counterexample): the round-trip fails on a path containing a
Coalesce segment — narrowing through a Coalesce degrades to `any`
(aliased field names render the shape partially unknown), so inserting
`integer` under a one-candidate coalesce and narrowing back yields `any`,
not `integer`. -/
theorem c9_counterexample :
    Kind.at_path
        (Kind.with_type_inserted Kind.null [SegmentBuf.coalesce ["a"]]
          Kind.integer)
        [SegmentBuf.coalesce ["a"]] ≠ Kind.integer := by
  decide

/-- C9 (amended): for every Kind `k`, Kind `t`, and path `p` free of
Coalesce segments, narrowing after insertion round-trips:
`at_path (with_type_inserted k p t) p = t`. -/
theorem c9_roundtrip (k t : Kind) (p : LookupBuf)
    (hfree : coalesceFree p = true) :
    (k.with_type_inserted p t).at_path p = t :=
  at_path_with_type_inserted p k t hfree

/-- C9 (witness): the round-trip at a concrete two-segment field/index
path over an `integer` root. -/
theorem c9_roundtrip_witness :
    coalesceFree [SegmentBuf.field "a", SegmentBuf.index 2] = true ∧
      (Kind.integer.with_type_inserted
          [SegmentBuf.field "a", SegmentBuf.index 2]
          Kind.boolean).at_path
        [SegmentBuf.field "a", SegmentBuf.index 2] = Kind.boolean :=
  ⟨by decide,
   c9_roundtrip Kind.integer Kind.boolean
     [SegmentBuf.field "a", SegmentBuf.index 2] (by decide)⟩

/-- C3: a Single assignment whose right-hand side carries the
caller-propagated fallible-rhs marker always fails compilation with
FallibleAssignment, for every target node whatsoever — in particular the
check precedes the Noop check, target resolution, and the mutability and
overwriteability checks, none of which can run — and the environments are
left untouched. -/
theorem c3_fallible_assignment (tgt : Node AssignmentTarget)
    (expr : Node Expr) (loc : LocalEnv) (ext : ExternalEnv) (ns : Span) :
    Assignment.new ⟨ns, Variant.single tgt expr⟩ loc ext true =
      (Except.error
        ⟨ErrorVariant.fallibleAssignment tgt.inner.render expr.inner.text,
         expr.span, Span.new tgt.span.start (expr.span.start - 1)⟩,
       loc, ext) := by
  rfl

/-- C8: a Single assignment to a syntactic Noop target (with the
fallible-rhs marker absent) fails with UnnecessaryNoop; an Infallible
assignment whose `ok` and `err` targets are both Noop (and whose
expression is fallible) fails with UnnecessaryNoop; an Infallible
assignment where only the `ok` target is Noop and the `err` target is a
variable compiles successfully — a partial noop is permitted. -/
theorem c8_noop_rules :
    (∀ (tspan : Span) (expr : Node Expr) (loc : LocalEnv)
        (ext : ExternalEnv) (ns : Span),
      Assignment.new
          ⟨ns, Variant.single ⟨tspan, AssignmentTarget.noop⟩ expr⟩ loc ext
          false =
        (Except.error
          ⟨ErrorVariant.unnecessaryNoop tspan, expr.span,
           Span.new tspan.start (expr.span.start - 1)⟩, loc, ext)) ∧
    (∀ (s1 s2 : Span) (expr : Node Expr) (d : Value) (loc : LocalEnv)
        (ext : ExternalEnv) (fb : Bool) (ns : Span),
      (expr.inner.type_def loc ext).fallible = true →
      Assignment.new
          ⟨ns, Variant.infallible ⟨s1, AssignmentTarget.noop⟩
            ⟨s2, AssignmentTarget.noop⟩ expr d⟩ loc ext fb =
        (Except.error
          ⟨ErrorVariant.unnecessaryNoop s1, expr.span,
           Span.new s1.start s2.stop⟩, loc, ext)) ∧
    (∀ (s1 s2 : Span) (ident : Ident) (expr : Node Expr) (d : Value)
        (loc : LocalEnv) (ext : ExternalEnv) (fb : Bool) (ns : Span),
      (expr.inner.type_def loc ext).fallible = true →
      (Assignment.new
          ⟨ns, Variant.infallible ⟨s1, AssignmentTarget.noop⟩
            ⟨s2, AssignmentTarget.internal ident none⟩ expr d⟩ loc ext
          fb).1.isOk = true) := by
  refine ⟨fun tspan expr loc ext ns => rfl, ?_, ?_⟩
  · intro s1 s2 expr d loc ext fb ns h
    simp [Assignment.new, Node.take, TypeDef.is_infallible, h]
  · intro s1 s2 ident expr d loc ext fb ns h
    simp [Assignment.new, Node.take, Node.into_inner, TypeDef.is_infallible,
      h, Target.try_from, verify_mutable, verify_overwriteable,
      verifyLoopRev, Target.lookup_buf, LookupBuf.root, targetRootKind,
      Target.insert_type_def, Except.isOk, Except.toBool]

/-- C8 (witness): the three rules at concrete inputs — `_ = 1` rejected,
`_, _ = may_fail()` rejected, `_, err = may_fail()` accepted. -/
theorem c8_noop_rules_witness :
    (Assignment.new
        ⟨⟨0, 5⟩, Variant.single ⟨⟨0, 1⟩, AssignmentTarget.noop⟩
          ⟨⟨4, 5⟩, exprLit (Value.integer 1) Kind.integer "1"⟩⟩ locEnv0
        extEnv0 false).1.isOk = false ∧
    ((exprFallible (Value.integer 1) Kind.integer "may_fail()").type_def
        locEnv0 extEnv0).fallible = true ∧
    (Assignment.new
        ⟨⟨0, 16⟩, Variant.infallible ⟨⟨0, 1⟩, AssignmentTarget.noop⟩
          ⟨⟨3, 4⟩, AssignmentTarget.noop⟩
          ⟨⟨7, 16⟩, exprFallible (Value.integer 1) Kind.integer
            "may_fail()"⟩ Value.null⟩ locEnv0 extEnv0 false).1.isOk =
      false ∧
    (Assignment.new
        ⟨⟨0, 18⟩, Variant.infallible ⟨⟨0, 1⟩, AssignmentTarget.noop⟩
          ⟨⟨3, 6⟩, AssignmentTarget.internal "err" none⟩
          ⟨⟨9, 18⟩, exprFallible (Value.integer 1) Kind.integer
            "may_fail()"⟩ Value.null⟩ locEnv0 extEnv0 false).1.isOk =
      true := by
  refine ⟨?_, rfl, ?_, ?_⟩
  · rw [c8_noop_rules.1 ⟨0, 1⟩
      ⟨⟨4, 5⟩, exprLit (Value.integer 1) Kind.integer "1"⟩ locEnv0 extEnv0
      ⟨0, 5⟩]
    rfl
  · rw [c8_noop_rules.2.1 ⟨0, 1⟩ ⟨3, 4⟩
      ⟨⟨7, 16⟩, exprFallible (Value.integer 1) Kind.integer "may_fail()"⟩
      Value.null locEnv0 extEnv0 false ⟨0, 16⟩ rfl]
    rfl
  · exact c8_noop_rules.2.2 ⟨0, 1⟩ ⟨3, 6⟩ "err"
      ⟨⟨9, 18⟩, exprFallible (Value.integer 1) Kind.integer "may_fail()"⟩
      Value.null locEnv0 extEnv0 false ⟨0, 18⟩ rfl

/-- C6: whenever the external environment's read-only predicate matches
an External target's path, the mutability check fails with ReadOnly, and
a Single assignment to such a target fails compilation with ReadOnly no
matter what the path's shape is — the mutability check runs before the
overwriteability check ever sees the path; Internal and Noop targets
always pass the mutability check. -/
theorem c6_read_only :
    (∀ (p : LookupBuf) (ext : ExternalEnv) (espan aspan : Span),
      ext.is_read_only_event_path p = true →
      verify_mutable (Target.external p) ext espan aspan =
        Except.error ⟨ErrorVariant.readOnly, espan, aspan⟩) ∧
    (∀ (ident : Ident) (p : LookupBuf) (ext : ExternalEnv)
        (espan aspan : Span),
      verify_mutable (Target.internal ident p) ext espan aspan =
          Except.ok () ∧
        verify_mutable Target.noop ext espan aspan = Except.ok ()) ∧
    (∀ (p : LookupBuf) (tspan : Span) (expr : Node Expr) (loc : LocalEnv)
        (ext : ExternalEnv) (ns : Span),
      ext.is_read_only_event_path p = true →
      Assignment.new
          ⟨ns, Variant.single ⟨tspan, AssignmentTarget.external (some p)⟩
            expr⟩ loc ext false =
        (Except.error
          ⟨ErrorVariant.readOnly, expr.span,
           Span.new tspan.start (expr.span.start - 1)⟩, loc, ext)) := by
  refine ⟨?_, ?_, ?_⟩
  · intro p ext espan aspan hro
    simp [verify_mutable, hro]
  · intro ident p ext espan aspan
    exact ⟨rfl, rfl⟩
  · intro p tspan expr loc ext ns hro
    simp [Assignment.new, Node.take, Node.into_inner, Target.try_from,
      verify_mutable, hro]

/-- C6 (witness): a read-only external root field is rejected with
ReadOnly at the compile level, and the checks at concrete inputs. -/
theorem c6_read_only_witness :
    extEnvRO.is_read_only_event_path [SegmentBuf.field "x"] = true ∧
    verify_mutable (Target.external [SegmentBuf.field "x"]) extEnvRO
        ⟨4, 5⟩ ⟨0, 3⟩ =
      Except.error ⟨ErrorVariant.readOnly, ⟨4, 5⟩, ⟨0, 3⟩⟩ ∧
    verify_mutable (Target.internal "v" [SegmentBuf.field "x"]) extEnvRO
        ⟨4, 5⟩ ⟨0, 3⟩ = Except.ok () ∧
    Assignment.new
        ⟨⟨0, 6⟩, Variant.single
          ⟨⟨0, 2⟩, AssignmentTarget.external (some [SegmentBuf.field "x"])⟩
          ⟨⟨5, 6⟩, exprLit (Value.integer 2) Kind.integer "2"⟩⟩ locEnv0
        extEnvRO false =
      (Except.error ⟨ErrorVariant.readOnly, ⟨5, 6⟩, Span.new 0 4⟩,
       locEnv0, extEnvRO) :=
  ⟨rfl,
   c6_read_only.1 [SegmentBuf.field "x"] extEnvRO ⟨4, 5⟩ ⟨0, 3⟩ rfl,
   (c6_read_only.2.1 "v" [SegmentBuf.field "x"] extEnvRO ⟨4, 5⟩ ⟨0, 3⟩).1,
   c6_read_only.2.2 [SegmentBuf.field "x"] ⟨0, 2⟩
     ⟨⟨5, 6⟩, exprLit (Value.integer 2) Kind.integer "2"⟩ locEnv0 extEnvRO
     ⟨0, 6⟩ rfl⟩

/-- C2: the overwriteability check agrees with the specified back-to-front
walk — it accepts a target exactly when narrowing the target's root Kind
via `at_path` along each prefix satisfies `contains_object` for every
Field/Coalesce segment and `contains_array` for every Index segment, and
on the first failing segment it aborts with InvalidParentPathSegment
carrying that walk's required structural kind and offending parent Kind;
concretely, for a variable statically known as `integer`, compiling
`v.b = 2` fails citing "object" with parent kind `integer`. -/
theorem c2_overwriteability :
    (∀ (t : Target) (loc : LocalEnv) (ext : ExternalEnv)
        (tspan espan aspan : Span) (rhs : Expr),
      (verify_overwriteable t loc ext tspan espan aspan rhs =
          Except.ok () →
        specOverwriteWalk (targetRootKind t loc ext) t.lookup_buf =
          none) ∧
      (∀ e, verify_overwriteable t loc ext tspan espan aspan rhs =
          Except.error e →
        ∃ v pk,
          specOverwriteWalk (targetRootKind t loc ext) t.lookup_buf =
              some (v, pk) ∧
            e.tag = ErrorTag.invalidParentPathSegment ∧
            e.requiredStr? = some v ∧ e.parentKind? = some pk)) ∧
    (∃ e,
      (Assignment.new
          ⟨⟨0, 7⟩, Variant.single
            ⟨⟨0, 3⟩,
             AssignmentTarget.internal "v" (some [SegmentBuf.field "b"])⟩
            ⟨⟨6, 7⟩, exprLit (Value.integer 2) Kind.integer "2"⟩⟩
          ⟨[("v", ⟨⟨Kind.integer, false⟩, none⟩)]⟩ extEnv0 false).1 =
        Except.error e ∧
      e.tag = ErrorTag.invalidParentPathSegment ∧
      e.requiredStr? = some "object" ∧
      e.parentKind? = some Kind.integer) := by
  constructor
  · intro t loc ext tspan espan aspan rhs
    exact verifyLoopRev_spec t.lookup_buf.reverse t
      (targetRootKind t loc ext) espan aspan rhs tspan ""
  · exact ⟨_, rfl, rfl, rfl, rfl⟩

/-- C2 (witness): the ok-direction of the equivalence at a concrete
input — a variable known as `object {b: integer}` admits `v.b = 2`, and
the spec-side walk agrees. -/
theorem c2_overwriteability_witness :
    specOverwriteWalk
        (targetRootKind (Target.internal "v" [SegmentBuf.field "b"])
          ⟨[("v",
             ⟨⟨Kind.object (KFields.cons "b" Kind.integer KFields.nil),
               false⟩, none⟩)]⟩ extEnv0)
        (Target.lookup_buf (Target.internal "v" [SegmentBuf.field "b"])) =
      none :=
  ((c2_overwriteability.1 (Target.internal "v" [SegmentBuf.field "b"])
      ⟨[("v",
         ⟨⟨Kind.object (KFields.cons "b" Kind.integer KFields.nil),
           false⟩, none⟩)]⟩ extEnv0 ⟨0, 3⟩ ⟨6, 7⟩ ⟨0, 5⟩
      (exprLit (Value.integer 2) Kind.integer "2")).1) rfl

/-- Looking up the variable just written by `insert_variable` yields the
written Details. -/
theorem LocalEnv.variable_insert (loc : LocalEnv) (i : Ident) (d : Details) :
    (loc.insert_variable i d).variable_ i = some d := by
  simp [LocalEnv.insert_variable, LocalEnv.variable_, List.lookup]

/-- Inversion of a successful Infallible compile: both targets resolved,
the `ok` target's environment update threads the expression's type
definition marked infallible together with its known constant value, the
`err` target's update threads bytes-or-null (infallible) with no constant
value, and the compiled node stores the canonical default value of the
`ok` type definition. -/
theorem Assignment.new_infallible_inv (okN errN : Node AssignmentTarget)
    (expr : Node Expr) (d : Value) (loc : LocalEnv) (ext : ExternalEnv)
    (fb : Bool) (ns : Span) (a : Assignment) (l' : LocalEnv)
    (e' : ExternalEnv)
    (h : Assignment.new ⟨ns, Variant.infallible okN errN expr d⟩ loc ext fb =
      (Except.ok a, l', e')) :
    ∃ okT errT,
      Target.try_from okN.inner = Except.ok okT ∧
      Target.try_from errN.inner = Except.ok errT ∧
      a.variant = Variant.infallible okT errT expr.inner
        ((expr.inner.type_def loc ext).infallible.default_value) ∧
      l' = (errT.insert_type_def
          (okT.insert_type_def loc ext
            (expr.inner.type_def loc ext).infallible expr.inner.as_value).1
          (okT.insert_type_def loc ext
            (expr.inner.type_def loc ext).infallible expr.inner.as_value).2
          TypeDef.bytes.add_null.infallible none).1 ∧
      e' = (errT.insert_type_def
          (okT.insert_type_def loc ext
            (expr.inner.type_def loc ext).infallible expr.inner.as_value).1
          (okT.insert_type_def loc ext
            (expr.inner.type_def loc ext).infallible expr.inner.as_value).2
          TypeDef.bytes.add_null.infallible none).2 := by
  simp only [Assignment.new, Node.take, Node.into_inner] at h
  split at h
  · simp at h
  · split at h
    · simp at h
    · split at h
      next er heq1 => simp at h
      next okT heq1 =>
        split at h
        next er heq2 => simp at h
        next u heq2 =>
          split at h
          next er heq3 => simp at h
          next u heq3 =>
            split at h
            next er heq4 => simp at h
            next errT heq4 =>
              split at h
              next er heq5 => simp at h
              next u heq5 =>
                split at h
                next er heq6 => simp at h
                next u heq6 =>
                  simp only [Prod.mk.injEq, Except.ok.injEq] at h
                  obtain ⟨h1, h2, h3⟩ := h
                  exact ⟨okT, errT, heq1, heq4, by rw [← h1], by rw [← h2],
                    by rw [← h3]⟩

/-- C4: a successful Single assignment updates the owning environment's
entry for the target to the root type definition with the expression's
type definition inserted at the target's path — the root Kind being the
variable's current Kind (`any` when the variable is unseen) or the
external record's current Kind — and stores the right-hand side's known
constant value alongside; the other environment is untouched. -/
theorem c4_environment_update :
    (∀ (ident : Ident) (p : LookupBuf) (tspan : Span) (expr : Node Expr)
        (loc : LocalEnv) (ext : ExternalEnv) (ns : Span) (a : Assignment)
        (l2 : LocalEnv) (e2 : ExternalEnv),
      Assignment.new
          ⟨ns, Variant.single
            ⟨tspan, AssignmentTarget.internal ident (some p)⟩ expr⟩ loc ext
          false = (Except.ok a, l2, e2) →
      l2.variable_ ident =
          some ⟨⟨Kind.with_type_inserted
              (match loc.variable_ ident with
                | some d => d.type_def.kind
                | none => Kind.any) p (expr.inner.type_def loc ext).kind,
            (expr.inner.type_def loc ext).fallible⟩,
            expr.inner.as_value⟩ ∧
        e2 = ext) ∧
    (∀ (p : LookupBuf) (tspan : Span) (expr : Node Expr) (loc : LocalEnv)
        (ext : ExternalEnv) (ns : Span) (a : Assignment) (l2 : LocalEnv)
        (e2 : ExternalEnv),
      Assignment.new
          ⟨ns, Variant.single ⟨tspan, AssignmentTarget.external (some p)⟩
            expr⟩ loc ext false = (Except.ok a, l2, e2) →
      e2.target =
          ⟨⟨Kind.with_type_inserted ext.target_kind p
              (expr.inner.type_def loc ext).kind,
            (expr.inner.type_def loc ext).fallible⟩,
            expr.inner.as_value⟩ ∧
        l2 = loc) := by
  constructor
  · intro ident p tspan expr loc ext ns a l2 e2 h
    simp only [Assignment.new, Node.take, Node.into_inner, Target.try_from,
      verify_mutable, Bool.false_eq_true, if_false, reduceCtorEq] at h
    split at h
    next er heq => simp at h
    next u heq =>
      simp only [Prod.mk.injEq, Except.ok.injEq] at h
      obtain ⟨h1, h2, h3⟩ := h
      subst h2; subst h3
      simp only [Target.insert_type_def, LocalEnv.variable_insert]
      constructor
      · cases hvar : loc.variable_ ident with
        | none =>
            simp [hvar, TypeDef.with_type_inserted, TypeDef.null,
              with_type_inserted_null_any]
        | some d0 => simp [hvar, TypeDef.with_type_inserted]
      · trivial
  · intro p tspan expr loc ext ns a l2 e2 h
    simp only [Assignment.new, Node.take, Node.into_inner, Target.try_from,
      Bool.false_eq_true, if_false, reduceCtorEq] at h
    split at h
    next er heq => simp at h
    next u heq =>
      split at h
      next er heq2 => simp at h
      next u heq2 =>
        simp only [Prod.mk.injEq, Except.ok.injEq] at h
        obtain ⟨h1, h2, h3⟩ := h
        subst h2; subst h3
        simp [Target.insert_type_def, ExternalEnv.update_target,
          ExternalEnv.target, ExternalEnv.target_kind,
          TypeDef.with_type_inserted]

/-- C4 (witness): assigning `x.a = 2` with `x` unseen records
`x : object {a: integer}` (insertion into an `any` root) with known
constant 2, leaving the external environment unchanged. -/
theorem c4_environment_update_witness :
    (⟨[("x",
        ⟨⟨Kind.object (KFields.cons "a" Kind.integer KFields.nil), false⟩,
         some (Value.integer 2)⟩)]⟩ : LocalEnv).variable_ "x" =
        some ⟨⟨Kind.with_type_inserted
            (match locEnv0.variable_ "x" with
              | some d => d.type_def.kind
              | none => Kind.any) [SegmentBuf.field "a"]
            ((exprLit (Value.integer 2) Kind.integer "2").type_def locEnv0
              extEnv0).kind,
          ((exprLit (Value.integer 2) Kind.integer "2").type_def locEnv0
            extEnv0).fallible⟩,
          (exprLit (Value.integer 2) Kind.integer "2").as_value⟩ ∧
      extEnv0 = extEnv0 :=
  c4_environment_update.1 "x" [SegmentBuf.field "a"] ⟨0, 3⟩
    ⟨⟨6, 7⟩, exprLit (Value.integer 2) Kind.integer "2"⟩ locEnv0 extEnv0
    ⟨0, 7⟩
    ⟨Variant.single (Target.internal "x" [SegmentBuf.field "a"])
      (exprLit (Value.integer 2) Kind.integer "2")⟩
    ⟨[("x",
       ⟨⟨Kind.object (KFields.cons "a" Kind.integer KFields.nil), false⟩,
        some (Value.integer 2)⟩)]⟩ extEnv0 rfl

/-- C7: on a successful Infallible compile, the `ok` target's recorded
type definition is the expression's Kind marked infallible together with
the expression's known constant value, the node's stored default is the
canonical default value for that Kind, and the `err` target's recorded
type definition is bytes-or-null, infallible, with no constant value
stored for `err`. -/
theorem c7_infallible_typedefs :
    TypeDef.bytes.add_null.infallible =
        ⟨Kind.union Kind.bytes Kind.null, false⟩ ∧
    ∀ (okN errN : Node AssignmentTarget) (expr : Node Expr) (d : Value)
      (loc : LocalEnv) (ext : ExternalEnv) (fb : Bool) (ns : Span)
      (a : Assignment) (l2 : LocalEnv) (e2 : ExternalEnv),
      Assignment.new ⟨ns, Variant.infallible okN errN expr d⟩ loc ext fb =
        (Except.ok a, l2, e2) →
      ∃ okT errT,
        Target.try_from okN.inner = Except.ok okT ∧
        Target.try_from errN.inner = Except.ok errT ∧
        a.variant = Variant.infallible okT errT expr.inner
          ((expr.inner.type_def loc ext).infallible.default_value) ∧
        l2 = (errT.insert_type_def
            (okT.insert_type_def loc ext
              (expr.inner.type_def loc ext).infallible
              expr.inner.as_value).1
            (okT.insert_type_def loc ext
              (expr.inner.type_def loc ext).infallible
              expr.inner.as_value).2
            TypeDef.bytes.add_null.infallible none).1 ∧
        e2 = (errT.insert_type_def
            (okT.insert_type_def loc ext
              (expr.inner.type_def loc ext).infallible
              expr.inner.as_value).1
            (okT.insert_type_def loc ext
              (expr.inner.type_def loc ext).infallible
              expr.inner.as_value).2
            TypeDef.bytes.add_null.infallible none).2 :=
  ⟨rfl, fun okN errN expr d loc ext fb ns a l2 e2 h =>
    Assignment.new_infallible_inv okN errN expr d loc ext fb ns a l2 e2 h⟩

/-- C7 (witness): compiling `o, er = may_fail()` against empty
environments — the recorded type definitions at a concrete successful
compile: `o : integer` infallible with no constant, default 0, and
`er : bytes or null` infallible with no constant. -/
theorem c7_infallible_typedefs_witness :
    ∃ okT errT,
      Target.try_from (AssignmentTarget.internal "o" none) =
          Except.ok okT ∧
      Target.try_from (AssignmentTarget.internal "er" none) =
          Except.ok errT ∧
      (⟨Variant.infallible (Target.internal "o" [])
          (Target.internal "er" [])
          (exprFallible (Value.integer 1) Kind.integer "may_fail()")
          (Value.integer 0)⟩ : Assignment).variant =
        Variant.infallible okT errT
          (exprFallible (Value.integer 1) Kind.integer "may_fail()")
          (((exprFallible (Value.integer 1) Kind.integer
              "may_fail()").type_def locEnv0
            extEnv0).infallible.default_value) ∧
      (⟨[("er", ⟨TypeDef.bytes.add_null.infallible, none⟩),
         ("o", ⟨⟨Kind.integer, false⟩, none⟩)]⟩ : LocalEnv) =
        (errT.insert_type_def
            (okT.insert_type_def locEnv0 extEnv0
              (((exprFallible (Value.integer 1) Kind.integer
                  "may_fail()").type_def locEnv0 extEnv0).infallible)
              ((exprFallible (Value.integer 1) Kind.integer
                "may_fail()").as_value)).1
            (okT.insert_type_def locEnv0 extEnv0
              (((exprFallible (Value.integer 1) Kind.integer
                  "may_fail()").type_def locEnv0 extEnv0).infallible)
              ((exprFallible (Value.integer 1) Kind.integer
                "may_fail()").as_value)).2
            TypeDef.bytes.add_null.infallible none).1 ∧
      extEnv0 =
        (errT.insert_type_def
            (okT.insert_type_def locEnv0 extEnv0
              (((exprFallible (Value.integer 1) Kind.integer
                  "may_fail()").type_def locEnv0 extEnv0).infallible)
              ((exprFallible (Value.integer 1) Kind.integer
                "may_fail()").as_value)).1
            (okT.insert_type_def locEnv0 extEnv0
              (((exprFallible (Value.integer 1) Kind.integer
                  "may_fail()").type_def locEnv0 extEnv0).infallible)
              ((exprFallible (Value.integer 1) Kind.integer
                "may_fail()").as_value)).2
            TypeDef.bytes.add_null.infallible none).2 :=
  c7_infallible_typedefs.2
    ⟨⟨0, 1⟩, AssignmentTarget.internal "o" none⟩
    ⟨⟨3, 5⟩, AssignmentTarget.internal "er" none⟩
    ⟨⟨8, 18⟩, exprFallible (Value.integer 1) Kind.integer "may_fail()"⟩
    Value.null locEnv0 extEnv0 false ⟨0, 18⟩
    ⟨Variant.infallible (Target.internal "o" []) (Target.internal "er" [])
      (exprFallible (Value.integer 1) Kind.integer "may_fail()")
      (Value.integer 0)⟩
    ⟨[("er", ⟨TypeDef.bytes.add_null.infallible, none⟩),
      ("o", ⟨⟨Kind.integer, false⟩, none⟩)]⟩ extEnv0 rfl

/-- C5 (counterexample): compiling `a, .x = may_fail()` where the whole
external record is read-only fails on the `err` target's mutability
check with ReadOnly — yet the local environment is NOT left unchanged:
the `ok` target's entry `a` has already been recorded.  This refutes the
claim that both targets are validated before any environment update. -/
theorem c5_counterexample :
    compileResultErrTag
        (Assignment.new
          ⟨⟨0, 18⟩, Variant.infallible
            ⟨⟨0, 1⟩, AssignmentTarget.internal "a" none⟩
            ⟨⟨3, 5⟩, AssignmentTarget.external (some [SegmentBuf.field "x"])⟩
            ⟨⟨8, 18⟩, exprFallible (Value.integer 1) Kind.integer
              "may_fail()"⟩ Value.null⟩ locEnv0 extEnvRO false).1 =
      some ErrorTag.readOnly ∧
    (Assignment.new
        ⟨⟨0, 18⟩, Variant.infallible
          ⟨⟨0, 1⟩, AssignmentTarget.internal "a" none⟩
          ⟨⟨3, 5⟩, AssignmentTarget.external (some [SegmentBuf.field "x"])⟩
          ⟨⟨8, 18⟩, exprFallible (Value.integer 1) Kind.integer
            "may_fail()"⟩ Value.null⟩ locEnv0 extEnvRO
        false).2.1.variable_ "a" =
      some ⟨⟨Kind.integer, false⟩, none⟩ ∧
    locEnv0.variable_ "a" = none :=
  ⟨rfl, rfl, rfl⟩

/-- C5 (amended): in an Infallible compile, the `ok` target is resolved,
validated, and its environment update applied before the `err` target is
validated; consequently, when the `err` target's mutability check fails
(a read-only external path) the compile fails with ReadOnly but the
local environment retains the `ok` target's update — the environments
are not rolled back. -/
theorem c5_ok_update_precedes_err_validation (ident : Ident)
    (perr : LookupBuf) (s1 s2 : Span) (expr : Node Expr) (d : Value)
    (loc : LocalEnv) (ext : ExternalEnv) (fb : Bool) (ns : Span)
    (hf : (expr.inner.type_def loc ext).fallible = true)
    (hro : ext.is_read_only_event_path perr = true) :
    Assignment.new
        ⟨ns, Variant.infallible ⟨s1, AssignmentTarget.internal ident none⟩
          ⟨s2, AssignmentTarget.external (some perr)⟩ expr d⟩ loc ext fb =
      (Except.error ⟨ErrorVariant.readOnly, expr.span, s2⟩,
       ((Target.internal ident []).insert_type_def loc ext
         (expr.inner.type_def loc ext).infallible expr.inner.as_value).1,
       ext) := by
  simp [Assignment.new, Node.take, Node.into_inner, TypeDef.is_infallible,
    hf, Target.try_from, verify_mutable, verify_overwriteable,
    verifyLoopRev, Target.lookup_buf, LookupBuf.root, targetRootKind,
    Target.insert_type_def, hro]

/-- C5 (witness): the amended behavior at the counterexample's input. -/
theorem c5_ok_update_precedes_err_validation_witness :
    Assignment.new
        ⟨⟨0, 18⟩, Variant.infallible
          ⟨⟨0, 1⟩, AssignmentTarget.internal "a" none⟩
          ⟨⟨3, 5⟩, AssignmentTarget.external (some [SegmentBuf.field "x"])⟩
          ⟨⟨8, 18⟩, exprFallible (Value.integer 1) Kind.integer
            "may_fail()"⟩ Value.null⟩ locEnv0 extEnvRO false =
      (Except.error ⟨ErrorVariant.readOnly, ⟨8, 18⟩, ⟨3, 5⟩⟩,
       ((Target.internal "a" []).insert_type_def locEnv0 extEnvRO
         ((exprFallible (Value.integer 1) Kind.integer
             "may_fail()").type_def locEnv0 extEnvRO).infallible
         (exprFallible (Value.integer 1) Kind.integer
           "may_fail()").as_value).1,
       extEnvRO) :=
  c5_ok_update_precedes_err_validation "a" [SegmentBuf.field "x"] ⟨0, 1⟩
    ⟨3, 5⟩ ⟨⟨8, 18⟩, exprFallible (Value.integer 1) Kind.integer
      "may_fail()"⟩ Value.null locEnv0 extEnvRO false ⟨0, 18⟩ rfl rfl

/-- C1: runtime resolution of an Infallible assignment evaluates the
expression once and never yields a runtime error — on success the `ok`
target receives the computed value and the `err` target null; on failure
the `ok` target receives the compiled-in default and the `err` target the
failure's message as a byte string (never null); and that compiled-in
default is exactly the canonical default precomputed at compile time for
the expression's Kind. -/
theorem c1_infallible_runtime :
    (∀ (okT errT : Target) (ex : Expr) (d : Value) (ctx : Context),
      ((Variant.resolve (Variant.infallible okT errT ex d) ctx).1.isOk =
        true) ∧
      (∀ v ctx2, ex.resolve ctx = (Except.ok v, ctx2) →
        Variant.resolve (Variant.infallible okT errT ex d) ctx =
          (Except.ok v,
           errT.insert Value.null (okT.insert v ctx2))) ∧
      (∀ er ctx2, ex.resolve ctx = (Except.error er, ctx2) →
        Variant.resolve (Variant.infallible okT errT ex d) ctx =
            (Except.ok (Value.bytes er.message),
             errT.insert (Value.bytes er.message) (okT.insert d ctx2)) ∧
          Value.bytes er.message ≠ Value.null)) ∧
    (∀ (okN errN : Node AssignmentTarget) (expr : Node Expr) (d : Value)
        (loc : LocalEnv) (ext : ExternalEnv) (fb : Bool) (ns : Span)
        (a : Assignment) (l2 : LocalEnv) (e2 : ExternalEnv)
        (okT errT : Target) (exC : Expr) (dv : Value),
      Assignment.new ⟨ns, Variant.infallible okN errN expr d⟩ loc ext fb =
        (Except.ok a, l2, e2) →
      a.variant = Variant.infallible okT errT exC dv →
      dv = (expr.inner.type_def loc ext).infallible.default_value) := by
  constructor
  · intro okT errT ex d ctx
    refine ⟨?_, ?_, ?_⟩
    · rcases hres : ex.resolve ctx with ⟨r, c⟩
      cases r with
      | ok v => simp [Variant.resolve, hres, Except.isOk, Except.toBool]
      | error er => simp [Variant.resolve, hres, Except.isOk, Except.toBool]
    · intro v ctx2 hx
      simp [Variant.resolve, hx]
    · intro er ctx2 hx
      exact ⟨by simp [Variant.resolve, hx], by simp⟩
  · intro okN errN expr d loc ext fb ns a l2 e2 okT errT exC dv h hv
    obtain ⟨okT0, errT0, _, _, hvar, _, _⟩ :=
      Assignment.new_infallible_inv okN errN expr d loc ext fb ns a l2 e2 h
    rw [hvar] at hv
    injection hv with h1 h2 h3 h4
    exact h4.symm

/-- C1 (witness): a concrete successful evaluation — `o` receives 7 and
`e` receives null. -/
theorem c1_infallible_runtime_witness :
    Variant.resolve
        (Variant.infallible (Target.internal "o" [])
          (Target.internal "e" []) (exprLit (Value.integer 7) Kind.integer
            "7") (Value.integer 0)) ctxEmpty =
      (Except.ok (Value.integer 7),
       (Target.internal "e" []).insert Value.null
         ((Target.internal "o" []).insert (Value.integer 7) ctxEmpty)) :=
  ((c1_infallible_runtime.1 (Target.internal "o" [])
      (Target.internal "e" []) (exprLit (Value.integer 7) Kind.integer "7")
      (Value.integer 0) ctxEmpty).2.1) (Value.integer 7) ctxEmpty rfl

/-- C10 (counterexample): an assignment node's resolve does NOT always
return Ok — a Single assignment whose right-hand side fails at runtime
propagates the error. -/
theorem c10_counterexample :
    (Variant.resolve (Variant.single Target.noop (exprFailing "boom"))
        ctxEmpty).1.isOk = false :=
  rfl

/-- C10 (amended): a Single assignment's resolve returns Ok of the
right-hand side's computed value (after inserting it into the target)
whenever the right-hand side succeeds, and propagates the right-hand
side's runtime error otherwise; an Infallible assignment's resolve
always returns Ok — the computed value on success, and on failure the
error message rendered as a string, not the `ok` target's default
value. -/
theorem c10_resolve_semantics :
    (∀ (tgt : Target) (ex : Expr) (ctx : Context) (v : Value)
        (ctx2 : Context),
      ex.resolve ctx = (Except.ok v, ctx2) →
      Variant.resolve (Variant.single tgt ex) ctx =
        (Except.ok v, tgt.insert v ctx2)) ∧
    (∀ (tgt : Target) (ex : Expr) (ctx : Context) (er : RuntimeError)
        (ctx2 : Context),
      ex.resolve ctx = (Except.error er, ctx2) →
      Variant.resolve (Variant.single tgt ex) ctx =
        (Except.error er, ctx2)) ∧
    (∀ (okT errT : Target) (ex : Expr) (d : Value) (ctx : Context),
      ((Variant.resolve (Variant.infallible okT errT ex d) ctx).1.isOk =
        true) ∧
      (∀ v ctx2, ex.resolve ctx = (Except.ok v, ctx2) →
        (Variant.resolve (Variant.infallible okT errT ex d) ctx).1 =
          Except.ok v) ∧
      (∀ er ctx2, ex.resolve ctx = (Except.error er, ctx2) →
        (Variant.resolve (Variant.infallible okT errT ex d) ctx).1 =
          Except.ok (Value.bytes er.message))) := by
  refine ⟨?_, ?_, ?_⟩
  · intro tgt ex ctx v ctx2 hx
    simp [Variant.resolve, hx]
  · intro tgt ex ctx er ctx2 hx
    simp [Variant.resolve, hx]
  · intro okT errT ex d ctx
    refine ⟨?_, ?_, ?_⟩
    · rcases hres : ex.resolve ctx with ⟨r, c⟩
      cases r with
      | ok v => simp [Variant.resolve, hres, Except.isOk, Except.toBool]
      | error er => simp [Variant.resolve, hres, Except.isOk, Except.toBool]
    · intro v ctx2 hx
      simp [Variant.resolve, hx]
    · intro er ctx2 hx
      simp [Variant.resolve, hx]

/-- C10 (witness): a concrete Single assignment whose right-hand side
succeeds resolves to the computed value after inserting it. -/
theorem c10_resolve_semantics_witness :
    Variant.resolve
        (Variant.single (Target.internal "t" [])
          (exprLit (Value.integer 3) Kind.integer "3")) ctxEmpty =
      (Except.ok (Value.integer 3),
       (Target.internal "t" []).insert (Value.integer 3) ctxEmpty) :=
  c10_resolve_semantics.1 (Target.internal "t" [])
    (exprLit (Value.integer 3) Kind.integer "3") ctxEmpty
    (Value.integer 3) ctxEmpty rfl

end VRL
